import Mathlib

/-!
Verification development for the Shopify MCP project: a shallow embedding of
the MCP client module (remix-mcp-client/app/lib/mcp-client.server.ts), the
Gemini agentic orchestration loop (sendMessageToGemini), the Rails SSE
streams controller, the development tools controller, and the two registered
tool handlers, together with theorems about the specified properties.
-/

namespace McpSpec

/-- One entry of the content array of an MCP tool result. In the source this
is an open TypeScript record with a mandatory type field, an optional text
field, and an index signature admitting further keys; the optional error and
message fields stand for that index signature. -/
structure ContentItem where
  type : String := ""
  text : Option String := none
  error : Option Bool := none
  message : Option String := none
deriving Repr, DecidableEq

/-- McpToolResult of mcp-client.server.ts: a content array and an optional
isError flag. -/
structure McpToolResult where
  content : List ContentItem := []
  isError : Option Bool := none
deriving Repr, DecidableEq

/-- callMcpTool of mcp-client.server.ts. The underlying transport call
(client.callTool, which may reject) is the parameter clientCallTool; a
rejection carries the stringified error. On rejection the function returns
an error-shaped result instead of rethrowing. -/
def callMcpTool (clientCallTool : String → List (String × String) → Except String McpToolResult)
    (toolName : String) (args : List (String × String)) : McpToolResult :=
  match clientCallTool toolName args with
  | Except.ok result => result
  | Except.error e =>
      { content := [{ type := "text", text := some ("Tool execution failed: " ++ e) }],
        isError := some true }

/-- Module state of mcp-client.server.ts: the two module-level variables
mcpClient and connectionPromise. Clients and connection attempts are
identified by the index of the attempt that produced them. attemptsStarted
counts calls to initializeMcpClient and underlyingCloses counts calls to
client.close, so that the single-connection and idempotent-close properties
are observable. -/
structure McpModuleState where
  mcpClient : Option Nat := none
  connectionPromise : Option Nat := none
  attemptsStarted : Nat := 0
  underlyingCloses : Nat := 0
deriving Repr, DecidableEq

/-- What one synchronous run of getMcpClient up to its first await does. -/
inductive GetOutcome where
  | cached (client : Nat)
  | joined (attempt : Nat)
  | started (attempt : Nat)
deriving Repr, DecidableEq

/-- The synchronous prefix of getMcpClient: return the cached client, else
join the in-flight connectionPromise, else start a new attempt and store it
in connectionPromise. Node runs this prefix atomically (single thread up to
the first await). -/
def getMcpClientStep (s : McpModuleState) : McpModuleState × GetOutcome :=
  match s.mcpClient with
  | some c => (s, GetOutcome.cached c)
  | none =>
      match s.connectionPromise with
      | some a => (s, GetOutcome.joined a)
      | none =>
          ({ s with connectionPromise := some s.attemptsStarted,
                    attemptsStarted := s.attemptsStarted + 1 },
           GetOutcome.started s.attemptsStarted)

/-- Resolution of the in-flight connection attempt: on success the starter
stores the client in mcpClient (connectionPromise is left in place); on
failure the starter resets connectionPromise to null so a later call can
retry. -/
def resolveConnection (ok : Bool) (s : McpModuleState) : McpModuleState :=
  match s.connectionPromise with
  | none => s
  | some a =>
      if ok then { s with mcpClient := some a }
      else { s with connectionPromise := none }

/-- An event of the module lifetime: a call to getMcpClient, or the
resolution of the in-flight connection attempt. -/
inductive McpEvent where
  | call
  | resolve (ok : Bool)
deriving Repr, DecidableEq

def mcpStep (s : McpModuleState) : McpEvent → McpModuleState
  | McpEvent.call => (getMcpClientStep s).1
  | McpEvent.resolve ok => resolveConnection ok s

def runMcpTrace (s : McpModuleState) (events : List McpEvent) : McpModuleState :=
  events.foldl mcpStep s

def initialMcpState : McpModuleState := {}

/-- Number of failed connection attempts in a trace. -/
def countFailures (events : List McpEvent) : Nat :=
  (events.filter (fun e => e == McpEvent.resolve false)).length

/-- closeMcpClient of mcp-client.server.ts: when a client is cached, close
the underlying connection and null both module variables; otherwise do
nothing. -/
def closeMcpClient (s : McpModuleState) : McpModuleState :=
  match s.mcpClient with
  | some _ =>
      { s with mcpClient := none, connectionPromise := none,
               underlyingCloses := s.underlyingCloses + 1 }
  | none => s

/-! The Gemini agentic orchestration loop of sendMessageToGemini. -/

/-- A function call requested by the model: name and argument record. -/
structure FunctionCall where
  name : String
  args : List (String × String) := []
deriving Repr, DecidableEq

/-- A part of a model candidate: either text or a function call (the two
guards used by the source are membership of the text and functionCall
keys). -/
inductive Part where
  | text (s : String)
  | functionCall (fc : FunctionCall)
deriving Repr, DecidableEq

def Part.getFunctionCall : Part → Option FunctionCall
  | Part.functionCall fc => some fc
  | _ => none

def Part.getText : Part → Option String
  | Part.text s => some s
  | _ => none

structure Candidate where
  parts : List Part := []
deriving Repr, DecidableEq

/-- The model response as consumed by the loop: the candidates array (the
source reads candidates[0]). -/
structure GeminiResponse where
  candidates : List Candidate := []
deriving Repr, DecidableEq

/-- A functionResponse part sent back to the model: the tool name and the
first content entry of the MCP result. -/
structure FunctionResponsePart where
  name : String
  response : Option ContentItem := none
deriving Repr, DecidableEq

/-- currentMessage of the loop: the initial user text, or the batch of
function responses from the previous turn. -/
inductive CurrentMessage where
  | text (s : String)
  | functionResponses (parts : List FunctionResponsePart)
deriving Repr, DecidableEq

/-- One entry of toolCallRecords: tool name, input arguments and the first
content entry of the MCP result. Wall-clock duration is not modelled. -/
structure ToolCallRecord where
  name : String
  input : List (String × String)
  result : Option ContentItem
deriving Repr, DecidableEq

/-- The response object of sendMessageToGemini: message, toolCalls and
iterations. The usage token counters, copied from opaque model metadata,
are not modelled. -/
structure ChatResponse where
  message : String
  toolCalls : List ToolCallRecord
  iterations : Nat
deriving Repr, DecidableEq

structure Message where
  role : String
  content : String
deriving Repr, DecidableEq

structure ChatRequest where
  messages : List Message
  maxToolCalls : Nat := 10
deriving Repr, DecidableEq

/-- Fallback message of the no-candidate return site. -/
def noCandidateMessage : String := "I apologize, but I was unable to generate a response."

/-- Fallback message of the safety-limit return site. -/
def limitMessage : String :=
  "I\x27ve been working on your request but reached my limit for tool calls. " ++
  "Here is what I found so far. Please try a more specific question."

/-- Default message when the final text content is empty. -/
def defaultFinalMessage : String := "I have processed your request."

/-- Extraction of the final text: the text parts joined by blank lines, with
the default when the join is empty. -/
def finalText (textParts : List String) : String :=
  let textContent := String.intercalate "\n\n" textParts
  if textContent.isEmpty then defaultFinalMessage else textContent

/-- The record pushed into toolCallRecords for one function call, given the
tool-calling function of the loop. -/
def mkToolCallRecord (callTool : String → List (String × String) → McpToolResult)
    (fc : FunctionCall) : ToolCallRecord :=
  { name := fc.name, input := fc.args, result := (callTool fc.name fc.args).content.head? }

/-- The functionResponse part produced for one function call. -/
def mkFunctionResponsePart (callTool : String → List (String × String) → McpToolResult)
    (fc : FunctionCall) : FunctionResponsePart :=
  { name := fc.name, response := (callTool fc.name fc.args).content.head? }

/-- One completion during the Promise.all fan-out: completing the call with
index i pushes its record onto toolCallRecords and fulfills slot i of the
result array. -/
def fanOutStep (callTool : String → List (String × String) → McpToolResult)
    (fcs : List FunctionCall)
    (acc : List ToolCallRecord × List (Option FunctionResponsePart)) (i : Nat) :
    List ToolCallRecord × List (Option FunctionResponsePart) :=
  match fcs.get? i with
  | some fc =>
      (acc.1 ++ [mkToolCallRecord callTool fc],
       acc.2.set i (some (mkFunctionResponsePart callTool fc)))
  | none => acc

/-- The Promise.all fan-out over one batch of function calls: the calls
complete in the order given by completionOrder; records are pushed in
completion order while each result lands in the slot of its own request
index. Promise.all resolves with the slot array. -/
def fanOut (callTool : String → List (String × String) → McpToolResult)
    (fcs : List FunctionCall) (completionOrder : List Nat) :
    List ToolCallRecord × List (Option FunctionResponsePart) :=
  completionOrder.foldl (fanOutStep callTool fcs) ([], List.replicate fcs.length none)

/-- The agentic loop of sendMessageToGemini. The model collaborator is a
function of the iteration number and the current message; sched gives the
completion order of each concurrent batch (iteration number and batch size
to order of completion). Mirrors the while loop of the source: guard,
increment, model call, no-candidate return, final-text return, or concurrent
tool dispatch followed by the next turn on the function responses. -/
def agenticLoop (model : Nat → CurrentMessage → GeminiResponse)
    (callTool : String → List (String × String) → McpToolResult)
    (sched : Nat → Nat → List Nat) (maxToolCalls : Nat)
    (iterations : Nat) (records : List ToolCallRecord)
    (currentMessage : CurrentMessage) : ChatResponse :=
  if _h : iterations < maxToolCalls then
    let it := iterations + 1
    match (model it currentMessage).candidates.head? with
    | none => { message := noCandidateMessage, toolCalls := records, iterations := it }
    | some candidate =>
        let functionCalls := candidate.parts.filterMap Part.getFunctionCall
        let textParts := candidate.parts.filterMap Part.getText
        if functionCalls.isEmpty then
          { message := finalText textParts, toolCalls := records, iterations := it }
        else
          let fan := fanOut callTool functionCalls (sched it functionCalls.length)
          agenticLoop model callTool sched maxToolCalls it (records ++ fan.1)
            (CurrentMessage.functionResponses (fan.2.filterMap id))
  else
    { message := limitMessage, toolCalls := records, iterations := iterations }
termination_by maxToolCalls - iterations
decreasing_by simp_wf; omega

/-- The iteration numbers at which the loop consults the model collaborator:
the model round-trips of one run. -/
def agenticLoopCalls (model : Nat → CurrentMessage → GeminiResponse)
    (callTool : String → List (String × String) → McpToolResult)
    (sched : Nat → Nat → List Nat) (maxToolCalls : Nat)
    (iterations : Nat) (currentMessage : CurrentMessage) : List Nat :=
  if _h : iterations < maxToolCalls then
    let it := iterations + 1
    match (model it currentMessage).candidates.head? with
    | none => [it]
    | some candidate =>
        let functionCalls := candidate.parts.filterMap Part.getFunctionCall
        if functionCalls.isEmpty then [it]
        else
          let fan := fanOut callTool functionCalls (sched it functionCalls.length)
          it :: agenticLoopCalls model callTool sched maxToolCalls it
            (CurrentMessage.functionResponses (fan.2.filterMap id))
  else []
termination_by maxToolCalls - iterations
decreasing_by simp_wf; omega

/-- sendMessageToGemini: destructure the request, check that the last
message is from the user (throwing otherwise, modelled as Except.error) and
run the agentic loop from iteration 0 with empty records. Tool discovery,
the function-declaration transform and the chat construction over the
earlier history are folded into the opaque model collaborator, per the
scope of the specification. -/
def sendMessageToGemini (model : Nat → CurrentMessage → GeminiResponse)
    (callTool : String → List (String × String) → McpToolResult)
    (sched : Nat → Nat → List Nat) (request : ChatRequest) :
    Except String ChatResponse :=
  match request.messages.getLast? with
  | none => Except.error "Last message must be from user"
  | some latestMessage =>
      if latestMessage.role = "user" then
        Except.ok (agenticLoop model callTool sched request.maxToolCalls 0 []
          (CurrentMessage.text latestMessage.content))
      else Except.error "Last message must be from user"

/-! Rails server side: the SSE streams controller
(app/controllers/mcp/streams_controller.rb). -/

/-- Rails blank test for a nullable string header or environment variable:
nil is blank, and a string is blank when all of its characters are
whitespace (the empty string included). -/
def optionBlank : Option String → Bool
  | none => true
  | some s => s.toList.all Char.isWhitespace

/-- Rails present test: the negation of blank. -/
def optionPresent (o : Option String) : Bool := ! optionBlank o

/-- authenticate_mcp_client of the streams controller (shared verbatim by
the tools controller): the X-MCP-Api-Key header and the MCP_API_KEY
environment variable must both be present and equal. -/
def authenticateMcpClient (apiKey expectedKey : Option String) : Bool :=
  optionPresent apiKey && optionPresent expectedKey && apiKey == expectedKey

/-- The data payload of an outbound SSE event, one constructor per payload
shape written by the controller; alpha is the type of tool and resource
results. Timestamps are not modelled. -/
inductive SseData (α : Type) where
  | connected (server version protocol : String)
  | toolResult (tool : String) (result : α)
  | toolError (error tool message : String)
  | resourceResult (resource : String) (result : α)
  | resourceError (error resource message : String)
  | protocolError (error message : String)
  | timeout (message : String)
  | internalError (error message : String)
deriving Repr, DecidableEq

/-- An outbound SSE event as framed by write_sse_event: event name and JSON
data payload (the optional id is never passed by this controller). -/
structure SseEvent (α : Type) where
  event : String
  data : SseData α
deriving Repr, DecidableEq

/-- The response stream of one SSE session: whether it is closed, and a
count of the close actions actually performed on it (so double-closing is
observable). -/
structure StreamHandle where
  closed : Bool
  closeActions : Nat := 0
deriving Repr, DecidableEq

/-- write_sse_event: a no-op on a closed stream, otherwise one framed event
is written. -/
def writeSseEvent {α : Type} (s : StreamHandle) (e : SseEvent α) : List (SseEvent α) :=
  if s.closed then [] else [e]

/-- The ensure block of the stream action: close the response stream unless
it is already closed. -/
def closeStreamHandle (s : StreamHandle) : StreamHandle :=
  if s.closed then s else { closed := true, closeActions := s.closeActions + 1 }

/-- The value handle_tool_call hands back to the transport: the tool result,
or the structured error hash built in its rescue clause. -/
inductive ToolCallReturn (α : Type) where
  | ok (result : α)
  | errorHash (error tool message : String)
deriving Repr, DecidableEq

/-- handle_tool_call of the streams controller. executeTool is
FastMcp.execute_tool, which may raise (modelled by Except.error with the
exception message). A raising handler is caught: the function returns the
structured error hash and writes a tool_error event; it never closes the
stream and never propagates the fault. Returns the value handed back to the
transport, the events written, and the stream afterwards. -/
def handleToolCall {α : Type} (executeTool : String → List (String × String) → Except String α)
    (s : StreamHandle) (toolName : String) (parameters : List (String × String)) :
    ToolCallReturn α × List (SseEvent α) × StreamHandle :=
  match executeTool toolName parameters with
  | Except.ok result =>
      (ToolCallReturn.ok result,
       writeSseEvent s { event := "tool_result", data := SseData.toolResult toolName result },
       s)
  | Except.error msg =>
      (ToolCallReturn.errorHash "Tool execution failed" toolName msg,
       writeSseEvent s { event := "tool_error", data := SseData.toolError "Tool execution failed" toolName msg },
       s)

/-- The fixed data of the initial connection event written by the stream
action. -/
def connectedEvent {α : Type} : SseEvent α :=
  { event := "connected",
    data := SseData.connected "Unified Merchant Operations Platform" "1.0.0" "mcp/sse" }

inductive HttpStatus where
  | ok | unauthorized | forbidden | internalServerError
deriving Repr, DecidableEq

/-- Outcome of one request to GET /mcp/sse: HTTP status, the events written
onto the stream, and whether the stream action body ran (session state was
created). -/
structure StreamOutcome (α : Type) where
  status : HttpStatus
  events : List (SseEvent α)
  sessionStarted : Bool
deriving Repr, DecidableEq

/-- One request to GET /mcp/sse. The before_action authenticate_mcp_client
renders unauthorized and halts the chain on a bad credential, so the stream
action never runs: no event is written and no session state is created. On
success the action writes the connected event first and then hands the
stream to the MCP handler, whose subsequent events are the opaque parameter
handlerEvents. -/
def handleStreamRequest {α : Type} (apiKey expectedKey : Option String)
    (handlerEvents : List (SseEvent α)) : StreamOutcome α :=
  if authenticateMcpClient apiKey expectedKey then
    { status := HttpStatus.ok, events := connectedEvent :: handlerEvents, sessionStarted := true }
  else
    { status := HttpStatus.unauthorized, events := [], sessionStarted := false }

/-- The way the stream action body ended: normal handler return, client
disconnect, timeout, or any other StandardError. -/
inductive StreamTermination where
  | normal
  | clientDisconnected
  | timeoutError
  | internalError (msg : String)
deriving Repr, DecidableEq

/-- The rescue and ensure clauses of the stream action: each failure path
writes its event (timeout and error paths) and every path, normal or not,
runs the one terminal ensure block that closes the stream unless it is
already closed. -/
def finishStream {α : Type} (t : StreamTermination) (s : StreamHandle) :
    List (SseEvent α) × StreamHandle :=
  let events : List (SseEvent α) :=
    match t with
    | StreamTermination.normal => []
    | StreamTermination.clientDisconnected => []
    | StreamTermination.timeoutError =>
        writeSseEvent s { event := "timeout", data := SseData.timeout "Connection timeout" }
    | StreamTermination.internalError m =>
        writeSseEvent s { event := "error", data := SseData.internalError "Internal server error" m }
  (events, closeStreamHandle s)

/-! The development tools controller
(app/controllers/mcp/tools_controller.rb) and its routes. -/

inductive RailsEnv where
  | development | test | production
deriving Repr, DecidableEq

/-- The two direct-execution endpoints: GET /mcp/tools and
POST /mcp/tools/:tool_name. -/
inductive ToolsAction where
  | index
  | execute (toolName : String)
deriving Repr, DecidableEq

/-- config/routes.rb draws both tools routes only when
Rails.env.development? holds. -/
def toolsRouteDrawn (env : RailsEnv) : Bool := env == RailsEnv.development

/-- Outcome of a request to a tools endpoint. routeMissing: the route is not
drawn, the request never reaches the controller. forbidden: the
ensure_development_environment before_action rendered 403. unauthorized: the
authenticate_mcp_client before_action rendered 401. indexOk: the descriptor
list was rendered. executeOk and executeFailed: the execute action rendered
the result or its rescue rendered 500. -/
inductive ToolsResponse (α : Type) where
  | routeMissing
  | forbidden
  | unauthorized
  | indexOk
  | executeOk (toolName : String) (result : α)
  | executeFailed (toolName : String) (message : String)
deriving Repr, DecidableEq

/-- One request to a tools endpoint: routing, the environment filter
(applied to both actions), the credential filter (applied only to execute),
then the action. executeTool is FastMcp.execute_tool. -/
def handleToolsRequest {α : Type} (env : RailsEnv) (apiKey expectedKey : Option String)
    (executeTool : String → Except String α) (action : ToolsAction) : ToolsResponse α :=
  if toolsRouteDrawn env = false then ToolsResponse.routeMissing
  else if env != RailsEnv.development then ToolsResponse.forbidden
  else
    match action with
    | ToolsAction.index => ToolsResponse.indexOk
    | ToolsAction.execute name =>
        if authenticateMcpClient apiKey expectedKey then
          match executeTool name with
          | Except.ok r => ToolsResponse.executeOk name r
          | Except.error m => ToolsResponse.executeFailed name m
        else ToolsResponse.unauthorized

/-! The registered tool handlers (app/tools/refund_order.rb and
app/tools/aggregate_customer_context.rb). Monetary values are rationals;
a raised Ruby StandardError is modelled as Except.error carrying the
exception class name and message where the class matters, or just the
message. -/

/-- A raised Ruby StandardError: class name and message. -/
structure RubyError where
  className : String
  message : String
deriving Repr, DecidableEq

/-- The mock order hash returned by RefundOrder fetch_order. The iso8601
created_at of the source is abstracted to the age of the order in days,
which is the only quantity the eligibility check derives from it. -/
structure Order where
  id : String
  total : ℚ
  createdDaysAgo : ℚ
  financialStatus : String
  fulfillmentStatus : String
deriving Repr, DecidableEq

/-- fetch_order of RefundOrder: a mock that always finds a paid,
ten-day-old order with total 125.99. -/
def mockFetchOrder (orderId : String) : Option Order :=
  some { id := orderId, total := 125.99, createdDaysAgo := 10,
         financialStatus := "paid", fulfillmentStatus := "fulfilled" }

/-- The message of the amount-exceeds-total raise. -/
def refundExceedsMessage (amount total : ℚ) : String :=
  "Refund amount ($" ++ toString amount ++ ") exceeds order total ($" ++ toString total ++ ")"

/-- validate_refund_eligibility of RefundOrder: raises (Except.error) on an
unpaid order, an order older than 30 days, or a refund amount exceeding the
order total; returns true otherwise. -/
def validateRefundEligibility (order : Order) (amount : Option ℚ) : Except String Bool :=
  if order.financialStatus != "paid" then Except.error "Order not paid yet"
  else if order.createdDaysAgo > 30 then Except.error "Order too old to refund (>30 days)"
  else
    match amount with
    | some a =>
        if a > order.total then Except.error (refundExceedsMessage a order.total)
        else Except.ok true
    | none => Except.ok true

/-- The mock refund produced by process_refund: a generated refund id and
the requested amount, defaulting to the full mock total. hexId stands for
the SecureRandom hex suffix. -/
structure RefundProcessed where
  refundId : String
  amount : ℚ
deriving Repr, DecidableEq

def mockProcessRefund (hexId : String) (amount : Option ℚ) : RefundProcessed :=
  { refundId := "refund_" ++ hexId, amount := amount.getD 125.99 }

/-- The hash returned by RefundOrder call: the success shape or the
error_response shape (success false, error message). The processed_at
timestamp is not modelled. -/
inductive RefundResult where
  | success (refundId orderId : String) (amountRefunded originalOrderTotal : ℚ)
      (reason : String) (notificationSent : Bool)
  | failure (error : String)
deriving Repr, DecidableEq

/-- RefundOrder call. The body may raise inside
validate_refund_eligibility; the trailing rescue StandardError catches any
such raise and returns the error_response hash. fetchOrder is the order
lookup (the source ships the mock mockFetchOrder, marked for replacement by
the Shopify API call). -/
def refundOrderCall (fetchOrder : String → Option Order) (hexId : String)
    (orderId : String) (amount : Option ℚ) (reason : String)
    (notifyCustomer : Bool) : RefundResult :=
  let body : Except String RefundResult :=
    match fetchOrder orderId with
    | none => Except.ok (RefundResult.failure "Order not found")
    | some order =>
        match validateRefundEligibility order amount with
        | Except.error e => Except.error e
        | Except.ok _ =>
            let processed := mockProcessRefund hexId amount
            Except.ok (RefundResult.success processed.refundId orderId processed.amount
              order.total reason notifyCustomer)
  match body with
  | Except.ok v => v
  | Except.error e => RefundResult.failure e

/-- The external collaborators of AggregateCustomerContext: the four
platform fetchers, each of which may raise. The payload type alpha is
opaque (the source ships mock hashes, marked for replacement by API
calls). -/
structure AggregateDeps (α : Type) where
  fetchShopify : String → Except RubyError α
  fetchSalesforce : String → Except RubyError α
  fetchKlaviyo : String → Except RubyError α
  fetchCin7 : String → Except RubyError α

/-- The value AggregateCustomerContext call returns: the aggregated context
hash, or the structured error hash built in its rescue clause (error true,
error_type, error_message, email, the partial data recovered per platform,
and the fixed suggestion). The derived presentation fields of the context
(summary, key_metrics, recommendations, alerts, metadata) are pure
functions of the platform payloads and are not modelled field by field. -/
inductive AggregateResult (α : Type) where
  | context (email : String) (shopify salesforce klaviyo : α) (cin7 : Option α)
  | errorHash (error : Bool) (errorType errorMessage email : String)
      (shopifyRecovered salesforceRecovered klaviyoRecovered : Option α)
      (suggestion : String)
deriving Repr, DecidableEq

/-- safe_fetch of AggregateCustomerContext: yield the fetcher, rescuing any
StandardError to nil. -/
def safeFetch {α : Type} (f : String → Except RubyError α) (email : String) : Option α :=
  match f email with
  | Except.ok v => some v
  | Except.error _ => none

/-- The raising part of AggregateCustomerContext call: the sequential
platform fetches (Cin7 only when historical data is requested) and the
context construction. -/
def aggregateCallBody {α : Type} (deps : AggregateDeps α) (email : String)
    (includeHistorical : Bool) : Except RubyError (AggregateResult α) := do
  let shopifyData ← deps.fetchShopify email
  let salesforceData ← deps.fetchSalesforce email
  let klaviyoData ←
    deps.fetchKlaviyo email
  let cin7Data ←
    if includeHistorical then Except.map some (deps.fetchCin7 email)
    else pure none
  pure (AggregateResult.context email shopifyData salesforceData klaviyoData cin7Data)

/-- AggregateCustomerContext call: run the body and catch any StandardError
in the trailing rescue, returning the structured error hash with
attempt_partial_aggregation of the three primary platforms (each fetched
independently through safe_fetch) and the fixed suggestion string. -/
def aggregateCall {α : Type} (deps : AggregateDeps α) (email : String)
    (includeHistorical : Bool) : AggregateResult α :=
  match aggregateCallBody deps email includeHistorical with
  | Except.ok context => context
  | Except.error e =>
      AggregateResult.errorHash true e.className e.message email
        (safeFetch deps.fetchShopify email)
        (safeFetch deps.fetchSalesforce email)
        (safeFetch deps.fetchKlaviyo email)
        "Try again or ask about a different customer."

/-! Auxiliary definitions used by the theorems. -/

/-- One when a connection attempt is in flight or a client is cached, zero
otherwise: the budget against which new attempts are counted. -/
def inflightBit (s : McpModuleState) : Nat :=
  if s.connectionPromise.isSome || s.mcpClient.isSome then 1 else 0

/-- The slot component of one fan-out completion: fulfilling call i stores
its function response at index i. -/
def slotSet (callTool : String → List (String × String) → McpToolResult)
    (fcs : List FunctionCall) (slots : List (Option FunctionResponsePart)) (i : Nat) :
    List (Option FunctionResponsePart) :=
  match fcs.get? i with
  | some fc => slots.set i (some (mkFunctionResponsePart callTool fc))
  | none => slots

/-- How one run of the agentic loop ended: the three return sites of the
source (no usable model response, final text answer, iteration ceiling). -/
inductive TerminationKind where
  | modelUnavailable
  | finalAnswer
  | limitReached
deriving Repr, DecidableEq

/-- Big-step description of the agentic loop, one constructor per return
site of the source plus the recursive tool-dispatch step. LoopRun model
callTool sched max its recs msg r k states: started at iteration count its
with accumulated records recs and current message msg, the loop returns r,
ending at the return site named by k. -/
inductive LoopRun (model : Nat → CurrentMessage → GeminiResponse)
    (callTool : String → List (String × String) → McpToolResult)
    (sched : Nat → Nat → List Nat) (maxToolCalls : Nat) :
    Nat → List ToolCallRecord → CurrentMessage → ChatResponse → TerminationKind → Prop where
  | limit (its : Nat) (recs : List ToolCallRecord) (msg : CurrentMessage)
      (h : ¬ its < maxToolCalls) :
      LoopRun model callTool sched maxToolCalls its recs msg
        { message := limitMessage, toolCalls := recs, iterations := its }
        TerminationKind.limitReached
  | modelUnavailable (its : Nat) (recs : List ToolCallRecord) (msg : CurrentMessage)
      (h : its < maxToolCalls)
      (hm : ((model (its + 1) msg).candidates.head?) = none) :
      LoopRun model callTool sched maxToolCalls its recs msg
        { message := noCandidateMessage, toolCalls := recs, iterations := its + 1 }
        TerminationKind.modelUnavailable
  | finalAnswer (its : Nat) (recs : List ToolCallRecord) (msg : CurrentMessage)
      (cand : Candidate) (h : its < maxToolCalls)
      (hm : ((model (its + 1) msg).candidates.head?) = some cand)
      (hfc : cand.parts.filterMap Part.getFunctionCall = []) :
      LoopRun model callTool sched maxToolCalls its recs msg
        { message := finalText (cand.parts.filterMap Part.getText), toolCalls := recs,
          iterations := its + 1 }
        TerminationKind.finalAnswer
  | toolStep (its : Nat) (recs : List ToolCallRecord) (msg : CurrentMessage)
      (cand : Candidate) (r : ChatResponse) (k : TerminationKind)
      (h : its < maxToolCalls)
      (hm : ((model (its + 1) msg).candidates.head?) = some cand)
      (hfc : cand.parts.filterMap Part.getFunctionCall ≠ [])
      (hrec : LoopRun model callTool sched maxToolCalls (its + 1)
        (recs ++ (fanOut callTool (cand.parts.filterMap Part.getFunctionCall)
          (sched (its + 1) (cand.parts.filterMap Part.getFunctionCall).length)).1)
        (CurrentMessage.functionResponses
          ((fanOut callTool (cand.parts.filterMap Part.getFunctionCall)
            (sched (its + 1) (cand.parts.filterMap Part.getFunctionCall).length)).2.filterMap id))
        r k) :
      LoopRun model callTool sched maxToolCalls its recs msg r k

/-- A demonstration function call for concrete runs. -/
def demoFunctionCall : FunctionCall :=
  { name := "aggregate_customer_context", args := [("email", "jane@example.com")] }

/-- A model collaborator that requests the demonstration tool call on every
turn. -/
def alwaysCallModel : Nat → CurrentMessage → GeminiResponse :=
  fun _ _ => { candidates := [{ parts := [Part.functionCall demoFunctionCall] }] }

/-- A tool-calling function that always succeeds with one text item. -/
def okCallTool : String → List (String × String) → McpToolResult :=
  fun _ _ => { content := [{ type := "text", text := some "ok" }] }

/-- The completion order in which calls finish in request order. -/
def idSched : Nat → Nat → List Nat := fun _ n => List.range n

/-- A transport that always rejects. -/
def failTransport : String → List (String × String) → Except String McpToolResult :=
  fun _ _ => Except.error "fetch failed"

/-! Theorems. Helper lemmas come first, then one theorem per claim with its
witness or counterexample. -/

lemma beq_false_of_ne {o p : Option String} (h : o ≠ p) : (o == p) = false := by
  simpa using h

/-- C2: a connection attempt whose credential header is absent, blank, or
different from the configured shared secret, or made when no secret is
configured, is rejected with an unauthorized status, creates no session
state and writes no event at all (in particular no connected event); a
request whose credential equals the configured (present) secret
authenticates, and the first event written on the stream is connected. -/
theorem stream_auth_spec :
    (∀ (α : Type) (apiKey expectedKey : Option String) (handlerEvents : List (SseEvent α)),
        authenticateMcpClient apiKey expectedKey = false →
          handleStreamRequest apiKey expectedKey handlerEvents =
            { status := HttpStatus.unauthorized, events := [], sessionStarted := false })
    ∧ (∀ expectedKey : Option String, authenticateMcpClient none expectedKey = false)
    ∧ (∀ apiKey : Option String, authenticateMcpClient apiKey none = false)
    ∧ (∀ apiKey expectedKey : Option String, apiKey ≠ expectedKey →
          authenticateMcpClient apiKey expectedKey = false)
    ∧ (∀ (α : Type) (apiKey expectedKey : Option String) (handlerEvents : List (SseEvent α)),
        optionPresent expectedKey = true → apiKey = expectedKey →
          authenticateMcpClient apiKey expectedKey = true ∧
          (handleStreamRequest apiKey expectedKey handlerEvents).events.head? =
            some connectedEvent ∧
          (handleStreamRequest apiKey expectedKey handlerEvents).sessionStarted = true) := by
  refine ⟨?_, ?_, ?_, ?_, ?_⟩
  · intro α apiKey expectedKey handlerEvents h
    simp [handleStreamRequest, h]
  · intro expectedKey
    simp [authenticateMcpClient, optionPresent, optionBlank]
  · intro apiKey
    simp [authenticateMcpClient, optionPresent, optionBlank]
  · intro apiKey expectedKey h
    simp [authenticateMcpClient, beq_false_of_ne h]
  · intro α apiKey expectedKey handlerEvents hpres heq
    subst heq
    have hauth : authenticateMcpClient apiKey apiKey = true := by
      simp [authenticateMcpClient, hpres]
    exact ⟨hauth, by simp [handleStreamRequest, hauth], by simp [handleStreamRequest, hauth]⟩

/-- Witness for stream_auth_spec: the missing-header request with secret k
is rejected with nothing on the stream, and the matching request opens with
the connected event. -/
theorem stream_auth_spec_witness :
    handleStreamRequest (α := Bool) none (some "k") [] =
      { status := HttpStatus.unauthorized, events := [], sessionStarted := false } ∧
    (handleStreamRequest (α := Bool) (some "k") (some "k") []).events.head? =
      some connectedEvent := by
  refine ⟨stream_auth_spec.1 Bool none (some "k") [] (stream_auth_spec.2.1 (some "k")), ?_⟩
  exact (stream_auth_spec.2.2.2.2 Bool (some "k") (some "k") [] (by decide) rfl).2.1

/-- C6: a tool handler that raises is caught by handle_tool_call, which
returns the structured error hash naming the tool and the failure message,
writes a tool_error event carrying that hash, and leaves the stream exactly
as it was: a single tool failure neither raises past the dispatcher nor
terminates the session or the stream. -/
theorem dispatcher_catch_spec :
    ∀ (α : Type) (executeTool : String → List (String × String) → Except String α)
      (s : StreamHandle) (toolName : String) (parameters : List (String × String))
      (msg : String),
      executeTool toolName parameters = Except.error msg →
        handleToolCall executeTool s toolName parameters =
          (ToolCallReturn.errorHash "Tool execution failed" toolName msg,
           writeSseEvent s
             { event := "tool_error",
               data := SseData.toolError "Tool execution failed" toolName msg },
           s)
        ∧ (handleToolCall executeTool s toolName parameters).2.2 = s
        ∧ (s.closed = false →
            (handleToolCall executeTool s toolName parameters).2.1 =
              [{ event := "tool_error",
                 data := SseData.toolError "Tool execution failed" toolName msg }]) := by
  intro α executeTool s toolName parameters msg h
  refine ⟨by simp [handleToolCall, h], by simp [handleToolCall, h], ?_⟩
  intro hs
  simp [handleToolCall, h, writeSseEvent, hs]

/-- Witness for dispatcher_catch_spec at a handler that always raises and
an open stream. -/
theorem dispatcher_catch_spec_witness :
    handleToolCall (α := Bool) (fun _ _ => Except.error "boom")
        { closed := false } "refund_order" [] =
      (ToolCallReturn.errorHash "Tool execution failed" "refund_order" "boom",
       writeSseEvent { closed := false }
         { event := "tool_error",
           data := SseData.toolError "Tool execution failed" "refund_order" "boom" },
       { closed := false }) :=
  (dispatcher_catch_spec Bool (fun _ _ => Except.error "boom")
    { closed := false } "refund_order" [] "boom" rfl).1

/-- C8: close is idempotent on both sides. Server side: the ensure block of
the stream action closes the response stream only when it is not already
closed, so closing twice equals closing once, a closed stream is left
untouched, and along every termination path of the stream action exactly
one terminal close action executes (none when the stream was already
closed). Client side: closeMcpClient run after it has already cleared the
cached client does nothing, and running it twice equals running it once. -/
theorem close_idempotent_spec :
    (∀ s : StreamHandle, closeStreamHandle (closeStreamHandle s) = closeStreamHandle s)
    ∧ (∀ s : StreamHandle, s.closed = true → closeStreamHandle s = s)
    ∧ (∀ (α : Type) (t : StreamTermination) (s : StreamHandle),
        ((finishStream (α := α) t s).2).closed = true ∧
        ((finishStream (α := α) t s).2).closeActions ≤ s.closeActions + 1 ∧
        (s.closed = true → ((finishStream (α := α) t s).2).closeActions = s.closeActions))
    ∧ (∀ s : McpModuleState, closeMcpClient (closeMcpClient s) = closeMcpClient s)
    ∧ (∀ s : McpModuleState, s.mcpClient = none → closeMcpClient s = s)
    ∧ (∀ s : McpModuleState, (closeMcpClient s).mcpClient = none) := by
  refine ⟨?_, ?_, ?_, ?_, ?_, ?_⟩
  · intro s
    by_cases hc : s.closed <;> simp [closeStreamHandle, hc]
  · intro s hc
    simp [closeStreamHandle, hc]
  · intro α t s
    by_cases hc : s.closed <;> simp [finishStream, closeStreamHandle, hc]
  · intro s
    cases hM : s.mcpClient <;> simp [closeMcpClient, hM]
  · intro s hM
    simp [closeMcpClient, hM]
  · intro s
    cases hM : s.mcpClient <;> simp [closeMcpClient, hM]

/-- Witness for close_idempotent_spec: closing the closed stream handle is
a no-op, and a second closeMcpClient after the first does nothing. -/
theorem close_idempotent_spec_witness :
    closeStreamHandle { closed := true, closeActions := 1 } =
      { closed := true, closeActions := 1 } ∧
    closeMcpClient
        { mcpClient := none, connectionPromise := none,
          attemptsStarted := 1, underlyingCloses := 1 } =
      { mcpClient := none, connectionPromise := none,
        attemptsStarted := 1, underlyingCloses := 1 } :=
  ⟨close_idempotent_spec.2.1 { closed := true, closeActions := 1 } rfl,
   close_idempotent_spec.2.2.2.2.1
     { mcpClient := none, connectionPromise := none,
       attemptsStarted := 1, underlyingCloses := 1 } rfl⟩

/-- Counterexample to C9 as stated: in the development environment a
GET /mcp/tools request carrying no X-MCP-Api-Key header at all, with a
secret configured, is answered with the tool list, not with an unauthorized
rejection — the index action is outside the credential filter
(authenticate_mcp_client is applied only to execute). -/
theorem tools_endpoint_auth_counterexample :
    handleToolsRequest (α := Bool) RailsEnv.development none (some "secret")
        (fun _ => Except.ok true) ToolsAction.index = ToolsResponse.indexOk ∧
    (ToolsResponse.indexOk : ToolsResponse Bool) ≠ ToolsResponse.unauthorized := by
  exact ⟨rfl, by decide⟩

/-- C9 amended: the direct-execution interface is routed only in the
development environment (so it is unavailable in production and every other
non-development environment), and the shared credential check guards
POST /mcp/tools/:tool_name — a request to execute without a valid
credential is rejected as unauthorized — while GET /mcp/tools is gated by
the environment alone and needs no credential. -/
theorem tools_endpoint_spec :
    (∀ (α : Type) (env : RailsEnv) (apiKey expectedKey : Option String)
        (executeTool : String → Except String α) (action : ToolsAction),
        env ≠ RailsEnv.development →
          handleToolsRequest env apiKey expectedKey executeTool action =
            ToolsResponse.routeMissing)
    ∧ (∀ (α : Type) (apiKey expectedKey : Option String)
        (executeTool : String → Except String α) (name : String),
        authenticateMcpClient apiKey expectedKey = false →
          handleToolsRequest RailsEnv.development apiKey expectedKey executeTool
            (ToolsAction.execute name) = ToolsResponse.unauthorized)
    ∧ (∀ (α : Type) (expectedKey : Option String)
        (executeTool : String → Except String α),
        handleToolsRequest RailsEnv.development none expectedKey executeTool
          ToolsAction.index = ToolsResponse.indexOk) := by
  refine ⟨?_, ?_, ?_⟩
  · intro α env apiKey expectedKey executeTool action h
    cases env <;> simp_all [handleToolsRequest, toolsRouteDrawn]
  · intro α apiKey expectedKey executeTool name h
    simp [handleToolsRequest, toolsRouteDrawn, h]
  · intro α expectedKey executeTool
    simp [handleToolsRequest, toolsRouteDrawn]

/-- Witness for tools_endpoint_spec: in production the route is missing,
and in development an execute request without the header is unauthorized. -/
theorem tools_endpoint_spec_witness :
    handleToolsRequest (α := Bool) RailsEnv.production none (some "secret")
        (fun _ => Except.ok true) (ToolsAction.execute "refund_order") =
      ToolsResponse.routeMissing ∧
    handleToolsRequest (α := Bool) RailsEnv.development none (some "secret")
        (fun _ => Except.ok true) (ToolsAction.execute "refund_order") =
      ToolsResponse.unauthorized :=
  ⟨tools_endpoint_spec.1 Bool RailsEnv.production none (some "secret")
      (fun _ => Except.ok true) (ToolsAction.execute "refund_order") (by decide),
   tools_endpoint_spec.2.1 Bool none (some "secret")
      (fun _ => Except.ok true) "refund_order" (by decide)⟩

/-- C10: both registered tool handlers are total at their public entry
point. Any StandardError raised inside the body of
AggregateCustomerContext call is caught and turned into the structured
error hash (error true, the exception class and message, the email, the
independently recovered per-platform data and the fixed suggestion); any
raise inside RefundOrder call — in particular each failed refund
eligibility check: an unpaid order, an order older than 30 days, a refund
amount exceeding the order total — is caught and turned into the
error_response hash (success false plus the message) instead of
propagating. -/
theorem tool_handlers_total_spec :
    (∀ (α : Type) (deps : AggregateDeps α) (email : String)
        (includeHistorical : Bool) (e : RubyError),
        aggregateCallBody deps email includeHistorical = Except.error e →
          aggregateCall deps email includeHistorical =
            AggregateResult.errorHash true e.className e.message email
              (safeFetch deps.fetchShopify email) (safeFetch deps.fetchSalesforce email)
              (safeFetch deps.fetchKlaviyo email)
              "Try again or ask about a different customer.")
    ∧ (∀ (fetchOrder : String → Option Order) (hexId orderId : String)
        (amount : Option ℚ) (reason : String) (notifyCustomer : Bool)
        (order : Order) (m : String),
        fetchOrder orderId = some order →
        validateRefundEligibility order amount = Except.error m →
          refundOrderCall fetchOrder hexId orderId amount reason notifyCustomer =
            RefundResult.failure m)
    ∧ (validateRefundEligibility
        { id := "o1", total := 125.99, createdDaysAgo := 10,
          financialStatus := "pending", fulfillmentStatus := "fulfilled" } none =
        Except.error "Order not paid yet")
    ∧ (validateRefundEligibility
        { id := "o2", total := 125.99, createdDaysAgo := 40,
          financialStatus := "paid", fulfillmentStatus := "fulfilled" } none =
        Except.error "Order too old to refund (>30 days)")
    ∧ (refundOrderCall mockFetchOrder "abc123" "o3" (some 200) "customer_request" true =
        RefundResult.failure (refundExceedsMessage 200 125.99)) := by
  refine ⟨?_, ?_, ?_, ?_, ?_⟩
  · intro α deps email includeHistorical e h
    simp [aggregateCall, h]
  · intro fetchOrder hexId orderId amount reason notifyCustomer order m hOrder hVal
    simp [refundOrderCall, hOrder, hVal]
  · simp +decide [validateRefundEligibility]
  · rw [validateRefundEligibility]
    norm_num
  · rw [refundOrderCall]
    norm_num [mockFetchOrder, validateRefundEligibility]

/-- Witness for tool_handlers_total_spec: a Shopify fetcher that raises
makes aggregateCall return the structured error hash, and the mock order
with an excessive amount makes refundOrderCall return the error response. -/
theorem tool_handlers_total_spec_witness :
    aggregateCall (α := Bool)
        { fetchShopify := fun _ => Except.error { className := "SocketError", message := "down" },
          fetchSalesforce := fun _ => Except.ok true,
          fetchKlaviyo := fun _ => Except.ok true,
          fetchCin7 := fun _ => Except.ok true }
        "jane@example.com" false =
      AggregateResult.errorHash true "SocketError" "down" "jane@example.com"
        none (some true) (some true)
        "Try again or ask about a different customer." ∧
    refundOrderCall mockFetchOrder "abc123" "o3" (some 200) "customer_request" true =
      RefundResult.failure (refundExceedsMessage 200 125.99) := by
  constructor
  · exact tool_handlers_total_spec.1 Bool
      { fetchShopify := fun _ => Except.error { className := "SocketError", message := "down" },
        fetchSalesforce := fun _ => Except.ok true,
        fetchKlaviyo := fun _ => Except.ok true,
        fetchCin7 := fun _ => Except.ok true }
      "jane@example.com" false { className := "SocketError", message := "down" } rfl
  · exact tool_handlers_total_spec.2.2.2.2

lemma countFailures_cons (e : McpEvent) (es : List McpEvent) :
    countFailures (e :: es) = countFailures [e] + countFailures es := by
  by_cases h : (e == McpEvent.resolve false) = true
  · simp [countFailures, List.filter_cons, h]
    omega
  · simp [countFailures, List.filter_cons, h]

lemma mcpStep_bound (s : McpModuleState) (e : McpEvent) :
    (mcpStep s e).attemptsStarted + inflightBit s ≤
      s.attemptsStarted + inflightBit (mcpStep s e) + countFailures [e] := by
  cases e with
  | call =>
      cases hc : s.mcpClient <;> cases hp : s.connectionPromise <;>
        simp [mcpStep, getMcpClientStep, inflightBit, hc, hp, countFailures]
  | resolve ok =>
      cases hp : s.connectionPromise <;> cases ok <;>
        simp [mcpStep, resolveConnection, inflightBit, hp, countFailures]

lemma runMcpTrace_bound (events : List McpEvent) :
    ∀ s : McpModuleState,
      (runMcpTrace s events).attemptsStarted + inflightBit s ≤
        s.attemptsStarted + inflightBit (runMcpTrace s events) + countFailures events := by
  induction events with
  | nil => intro s; simp [runMcpTrace, countFailures]
  | cons e es ih =>
      intro s
      have h1 := mcpStep_bound s e
      have h2 := ih (mcpStep s e)
      have h3 : runMcpTrace s (e :: es) = runMcpTrace (mcpStep s e) es := by
        simp [runMcpTrace]
      rw [h3, countFailures_cons]
      omega

/-- C7: getMcpClient is single-flight. Once a client is cached every call
returns that same client and changes nothing; while a connection attempt is
in flight every call joins exactly that attempt; a call never clears the
in-flight marker, successful resolution keeps it in place, and only a
failed resolution resets it so a later call may retry; consequently, over
any event sequence from the initial module state the number of connection
attempts started is at most the number of failed attempts plus one — in
particular, with no failure at most one underlying connection is ever
established. -/
theorem single_flight_spec :
    (∀ (s : McpModuleState) (c : Nat), s.mcpClient = some c →
        getMcpClientStep s = (s, GetOutcome.cached c))
    ∧ (∀ (s : McpModuleState) (a : Nat), s.mcpClient = none →
        s.connectionPromise = some a →
        getMcpClientStep s = (s, GetOutcome.joined a))
    ∧ (∀ (s : McpModuleState) (a : Nat), s.connectionPromise = some a →
        ((getMcpClientStep s).1).connectionPromise = some a)
    ∧ (∀ s : McpModuleState,
        (resolveConnection true s).connectionPromise = s.connectionPromise)
    ∧ (∀ s : McpModuleState, s.connectionPromise.isSome = true →
        (resolveConnection false s).connectionPromise = none)
    ∧ (∀ events : List McpEvent,
        (runMcpTrace initialMcpState events).attemptsStarted ≤ countFailures events + 1)
    ∧ (∀ events : List McpEvent, countFailures events = 0 →
        (runMcpTrace initialMcpState events).attemptsStarted ≤ 1) := by
  have hbound : ∀ events : List McpEvent,
      (runMcpTrace initialMcpState events).attemptsStarted ≤ countFailures events + 1 := by
    intro events
    have h := runMcpTrace_bound events initialMcpState
    have hb : inflightBit (runMcpTrace initialMcpState events) ≤ 1 := by
      unfold inflightBit; split <;> omega
    have h0 : inflightBit initialMcpState = 0 := rfl
    have hs : initialMcpState.attemptsStarted = 0 := rfl
    omega
  refine ⟨?_, ?_, ?_, ?_, ?_, hbound, ?_⟩
  · intro s c h
    simp [getMcpClientStep, h]
  · intro s a h1 h2
    simp [getMcpClientStep, h1, h2]
  · intro s a h
    cases hc : s.mcpClient <;> simp [getMcpClientStep, hc, h]
  · intro s
    cases hp : s.connectionPromise <;> simp [resolveConnection, hp]
  · intro s h
    obtain ⟨a, ha⟩ := Option.isSome_iff_exists.mp h
    simp [resolveConnection, ha]
  · intro events h
    have := hbound events
    omega

/-- Witness for single_flight_spec: a state with a cached client answers a
call untouched, and a trace of three calls around one successful resolution
starts at most one attempt. -/
theorem single_flight_spec_witness :
    getMcpClientStep
        { mcpClient := some 0, connectionPromise := some 0,
          attemptsStarted := 1, underlyingCloses := 0 } =
      ({ mcpClient := some 0, connectionPromise := some 0,
         attemptsStarted := 1, underlyingCloses := 0 }, GetOutcome.cached 0) ∧
    (runMcpTrace initialMcpState
        [McpEvent.call, McpEvent.call, McpEvent.resolve true, McpEvent.call]).attemptsStarted ≤ 1 :=
  ⟨single_flight_spec.1
     { mcpClient := some 0, connectionPromise := some 0,
       attemptsStarted := 1, underlyingCloses := 0 } 0 rfl,
   single_flight_spec.2.2.2.2.2.2
     [McpEvent.call, McpEvent.call, McpEvent.resolve true, McpEvent.call] rfl⟩

lemma agenticLoop_limit (model : Nat → CurrentMessage → GeminiResponse)
    (callTool : String → List (String × String) → McpToolResult)
    (sched : Nat → Nat → List Nat) (maxToolCalls its : Nat)
    (recs : List ToolCallRecord) (msg : CurrentMessage)
    (h : ¬ its < maxToolCalls) :
    agenticLoop model callTool sched maxToolCalls its recs msg =
      { message := limitMessage, toolCalls := recs, iterations := its } := by
  rw [agenticLoop]
  simp [h]

lemma agenticLoop_noCandidate (model : Nat → CurrentMessage → GeminiResponse)
    (callTool : String → List (String × String) → McpToolResult)
    (sched : Nat → Nat → List Nat) (maxToolCalls its : Nat)
    (recs : List ToolCallRecord) (msg : CurrentMessage)
    (h : its < maxToolCalls)
    (hm : ((model (its + 1) msg).candidates.head?) = none) :
    agenticLoop model callTool sched maxToolCalls its recs msg =
      { message := noCandidateMessage, toolCalls := recs, iterations := its + 1 } := by
  rw [agenticLoop]
  simp [h, hm]

lemma agenticLoop_final (model : Nat → CurrentMessage → GeminiResponse)
    (callTool : String → List (String × String) → McpToolResult)
    (sched : Nat → Nat → List Nat) (maxToolCalls its : Nat)
    (recs : List ToolCallRecord) (msg : CurrentMessage) (cand : Candidate)
    (h : its < maxToolCalls)
    (hm : ((model (its + 1) msg).candidates.head?) = some cand)
    (hfc : (cand.parts.filterMap Part.getFunctionCall).isEmpty = true) :
    agenticLoop model callTool sched maxToolCalls its recs msg =
      { message := finalText (cand.parts.filterMap Part.getText), toolCalls := recs,
        iterations := its + 1 } := by
  rw [agenticLoop]
  simp [h, hm, hfc]

lemma agenticLoop_step (model : Nat → CurrentMessage → GeminiResponse)
    (callTool : String → List (String × String) → McpToolResult)
    (sched : Nat → Nat → List Nat) (maxToolCalls its : Nat)
    (recs : List ToolCallRecord) (msg : CurrentMessage) (cand : Candidate)
    (h : its < maxToolCalls)
    (hm : ((model (its + 1) msg).candidates.head?) = some cand)
    (hfc : (cand.parts.filterMap Part.getFunctionCall).isEmpty = false) :
    agenticLoop model callTool sched maxToolCalls its recs msg =
      agenticLoop model callTool sched maxToolCalls (its + 1)
        (recs ++ (fanOut callTool (cand.parts.filterMap Part.getFunctionCall)
          (sched (its + 1) (cand.parts.filterMap Part.getFunctionCall).length)).1)
        (CurrentMessage.functionResponses
          ((fanOut callTool (cand.parts.filterMap Part.getFunctionCall)
            (sched (its + 1) (cand.parts.filterMap Part.getFunctionCall).length)).2.filterMap id)) := by
  conv_lhs => rw [agenticLoop]
  simp [h, hm, hfc]

lemma agenticLoopCalls_limit (model : Nat → CurrentMessage → GeminiResponse)
    (callTool : String → List (String × String) → McpToolResult)
    (sched : Nat → Nat → List Nat) (maxToolCalls its : Nat) (msg : CurrentMessage)
    (h : ¬ its < maxToolCalls) :
    agenticLoopCalls model callTool sched maxToolCalls its msg = [] := by
  rw [agenticLoopCalls]
  simp [h]

lemma agenticLoopCalls_noCandidate (model : Nat → CurrentMessage → GeminiResponse)
    (callTool : String → List (String × String) → McpToolResult)
    (sched : Nat → Nat → List Nat) (maxToolCalls its : Nat) (msg : CurrentMessage)
    (h : its < maxToolCalls)
    (hm : ((model (its + 1) msg).candidates.head?) = none) :
    agenticLoopCalls model callTool sched maxToolCalls its msg = [its + 1] := by
  rw [agenticLoopCalls]
  simp [h, hm]

lemma agenticLoopCalls_final (model : Nat → CurrentMessage → GeminiResponse)
    (callTool : String → List (String × String) → McpToolResult)
    (sched : Nat → Nat → List Nat) (maxToolCalls its : Nat) (msg : CurrentMessage)
    (cand : Candidate) (h : its < maxToolCalls)
    (hm : ((model (its + 1) msg).candidates.head?) = some cand)
    (hfc : (cand.parts.filterMap Part.getFunctionCall).isEmpty = true) :
    agenticLoopCalls model callTool sched maxToolCalls its msg = [its + 1] := by
  rw [agenticLoopCalls]
  simp [h, hm, hfc]

lemma agenticLoopCalls_step (model : Nat → CurrentMessage → GeminiResponse)
    (callTool : String → List (String × String) → McpToolResult)
    (sched : Nat → Nat → List Nat) (maxToolCalls its : Nat) (msg : CurrentMessage)
    (cand : Candidate) (h : its < maxToolCalls)
    (hm : ((model (its + 1) msg).candidates.head?) = some cand)
    (hfc : (cand.parts.filterMap Part.getFunctionCall).isEmpty = false) :
    agenticLoopCalls model callTool sched maxToolCalls its msg =
      (its + 1) :: agenticLoopCalls model callTool sched maxToolCalls (its + 1)
        (CurrentMessage.functionResponses
          ((fanOut callTool (cand.parts.filterMap Part.getFunctionCall)
            (sched (its + 1) (cand.parts.filterMap Part.getFunctionCall).length)).2.filterMap id)) := by
  conv_lhs => rw [agenticLoopCalls]
  simp [h, hm, hfc]

lemma agenticLoop_pack (model : Nat → CurrentMessage → GeminiResponse)
    (callTool : String → List (String × String) → McpToolResult)
    (sched : Nat → Nat → List Nat) (maxToolCalls : Nat) :
    ∀ (fuel its : Nat) (recs : List ToolCallRecord) (msg : CurrentMessage),
      maxToolCalls - its ≤ fuel →
      (∃ k, LoopRun model callTool sched maxToolCalls its recs msg
          (agenticLoop model callTool sched maxToolCalls its recs msg) k)
      ∧ (agenticLoop model callTool sched maxToolCalls its recs msg).iterations =
          its + (agenticLoopCalls model callTool sched maxToolCalls its msg).length
      ∧ (agenticLoopCalls model callTool sched maxToolCalls its msg).length ≤
          maxToolCalls - its := by
  intro fuel
  induction fuel with
  | zero =>
      intro its recs msg hf
      have h : ¬ its < maxToolCalls := by omega
      rw [agenticLoop_limit model callTool sched maxToolCalls its recs msg h,
          agenticLoopCalls_limit model callTool sched maxToolCalls its msg h]
      exact ⟨⟨TerminationKind.limitReached, LoopRun.limit its recs msg h⟩, by simp, by simp⟩
  | succ n ih =>
      intro its recs msg hf
      by_cases h : its < maxToolCalls
      · cases hm : ((model (its + 1) msg).candidates.head?) with
        | none =>
            rw [agenticLoop_noCandidate model callTool sched maxToolCalls its recs msg h hm,
                agenticLoopCalls_noCandidate model callTool sched maxToolCalls its msg h hm]
            exact ⟨⟨TerminationKind.modelUnavailable,
              LoopRun.modelUnavailable its recs msg h hm⟩, by simp, by simp; omega⟩
        | some cand =>
            cases hfc : (cand.parts.filterMap Part.getFunctionCall).isEmpty with
            | true =>
                rw [agenticLoop_final model callTool sched maxToolCalls its recs msg cand h hm hfc,
                    agenticLoopCalls_final model callTool sched maxToolCalls its msg cand h hm hfc]
                refine ⟨⟨TerminationKind.finalAnswer, ?_⟩, by simp, by simp; omega⟩
                exact LoopRun.finalAnswer its recs msg cand h hm (List.isEmpty_iff.mp hfc)
            | false =>
                rw [agenticLoop_step model callTool sched maxToolCalls its recs msg cand h hm hfc,
                    agenticLoopCalls_step model callTool sched maxToolCalls its msg cand h hm hfc]
                have hf2 : maxToolCalls - (its + 1) ≤ n := by omega
                obtain ⟨⟨k, hrun⟩, hco, hlen⟩ := ih (its + 1)
                  (recs ++ (fanOut callTool (cand.parts.filterMap Part.getFunctionCall)
                    (sched (its + 1) (cand.parts.filterMap Part.getFunctionCall).length)).1)
                  (CurrentMessage.functionResponses
                    ((fanOut callTool (cand.parts.filterMap Part.getFunctionCall)
                      (sched (its + 1) (cand.parts.filterMap Part.getFunctionCall).length)).2.filterMap id))
                  hf2
                refine ⟨⟨k, ?_⟩, ?_, ?_⟩
                · exact LoopRun.toolStep its recs msg cand _ k h hm
                    (by simpa [List.isEmpty_iff] using hfc) hrun
                · simp only [List.length_cons]
                  omega
                · simp only [List.length_cons]
                  omega
      · rw [agenticLoop_limit model callTool sched maxToolCalls its recs msg h,
            agenticLoopCalls_limit model callTool sched maxToolCalls its msg h]
        exact ⟨⟨TerminationKind.limitReached, LoopRun.limit its recs msg h⟩, by simp, by simp⟩

lemma agenticLoop_run (model : Nat → CurrentMessage → GeminiResponse)
    (callTool : String → List (String × String) → McpToolResult)
    (sched : Nat → Nat → List Nat) (maxToolCalls its : Nat)
    (recs : List ToolCallRecord) (msg : CurrentMessage) :
    ∃ k, LoopRun model callTool sched maxToolCalls its recs msg
      (agenticLoop model callTool sched maxToolCalls its recs msg) k :=
  (agenticLoop_pack model callTool sched maxToolCalls (maxToolCalls - its) its recs msg
    le_rfl).1

lemma loopRun_not_unavailable (model : Nat → CurrentMessage → GeminiResponse)
    (callTool : String → List (String × String) → McpToolResult)
    (sched : Nat → Nat → List Nat) (maxToolCalls its : Nat)
    (recs : List ToolCallRecord) (msg : CurrentMessage) (r : ChatResponse)
    (k : TerminationKind)
    (hhealthy : ∀ (it : Nat) (m : CurrentMessage),
      (((model it m).candidates.head?)).isSome = true)
    (hrun : LoopRun model callTool sched maxToolCalls its recs msg r k) :
    k ≠ TerminationKind.modelUnavailable := by
  induction hrun with
  | limit its recs msg h => simp
  | modelUnavailable its recs msg h hm =>
      have := hhealthy (its + 1) msg
      rw [hm] at this
      simp at this
  | finalAnswer its recs msg cand h hm hfc => simp
  | toolStep its recs msg cand r k h hm hfc hrec ih => exact ih

lemma loopRun_unavailable_message (model : Nat → CurrentMessage → GeminiResponse)
    (callTool : String → List (String × String) → McpToolResult)
    (sched : Nat → Nat → List Nat) (maxToolCalls its : Nat)
    (recs : List ToolCallRecord) (msg : CurrentMessage) (r : ChatResponse)
    (k : TerminationKind)
    (hrun : LoopRun model callTool sched maxToolCalls its recs msg r k) :
    k = TerminationKind.modelUnavailable → r.message = noCandidateMessage := by
  induction hrun with
  | limit its recs msg h => intro hk; cases hk
  | modelUnavailable its recs msg h hm => intro _; rfl
  | finalAnswer its recs msg cand h hm hfc => intro hk; cases hk
  | toolStep its recs msg cand r k h hm hfc hrec ih => exact ih

lemma fanOut_foldl (callTool : String → List (String × String) → McpToolResult)
    (fcs : List FunctionCall) :
    ∀ (σ : List Nat) (recs : List ToolCallRecord)
      (slots : List (Option FunctionResponsePart)),
      σ.foldl (fanOutStep callTool fcs) (recs, slots) =
        (recs ++ σ.filterMap (fun i => (fcs[i]?).map (mkToolCallRecord callTool)),
         σ.foldl (slotSet callTool fcs) slots) := by
  intro σ
  induction σ with
  | nil => intro recs slots; simp
  | cons j σ ih =>
      intro recs slots
      cases hj : fcs[j]? with
      | none =>
          have h1 : fanOutStep callTool fcs (recs, slots) j = (recs, slots) := by
            simp [fanOutStep, hj]
          have h2 : slotSet callTool fcs slots j = slots := by
            simp [slotSet, hj]
          simp only [List.foldl_cons, h1, h2, List.filterMap_cons, hj, Option.map_none']
          exact ih recs slots
      | some fc =>
          have h1 : fanOutStep callTool fcs (recs, slots) j =
              (recs ++ [mkToolCallRecord callTool fc],
               slots.set j (some (mkFunctionResponsePart callTool fc))) := by
            simp [fanOutStep, hj]
          have h2 : slotSet callTool fcs slots j =
              slots.set j (some (mkFunctionResponsePart callTool fc)) := by
            simp [slotSet, hj]
          simp only [List.foldl_cons, h1, h2, List.filterMap_cons, hj, Option.map_some']
          rw [ih]
          simp

lemma fanOut_eq (callTool : String → List (String × String) → McpToolResult)
    (fcs : List FunctionCall) (σ : List Nat) :
    fanOut callTool fcs σ =
      (σ.filterMap (fun i => (fcs[i]?).map (mkToolCallRecord callTool)),
       σ.foldl (slotSet callTool fcs) (List.replicate fcs.length none)) := by
  have h := fanOut_foldl callTool fcs σ [] (List.replicate fcs.length none)
  simpa [fanOut] using h

lemma slots_foldl_getElem (callTool : String → List (String × String) → McpToolResult)
    (fcs : List FunctionCall) :
    ∀ (σ : List Nat) (slots : List (Option FunctionResponsePart)),
      slots.length = fcs.length → ∀ i : Nat,
      (σ.foldl (slotSet callTool fcs) slots)[i]? =
        if i ∈ σ then
          (fcs[i]?).map (fun fc => some (mkFunctionResponsePart callTool fc))
        else slots[i]? := by
  intro σ
  induction σ with
  | nil => intro slots hlen i; simp
  | cons j σ ih =>
      intro slots hlen i
      rw [List.foldl_cons]
      have hlen2 : (slotSet callTool fcs slots j).length = fcs.length := by
        cases hj : fcs[j]? <;> simp [slotSet, hj, hlen]
      rw [ih (slotSet callTool fcs slots j) hlen2 i]
      by_cases hiσ : i ∈ σ
      · have : i ∈ j :: σ := List.mem_cons_of_mem j hiσ
        rw [if_pos hiσ, if_pos this]
      · rw [if_neg hiσ]
        by_cases hij : i = j
        · subst hij
          rw [if_pos (List.mem_cons_self i σ)]
          cases hj : fcs[i]? with
          | none =>
              have hge : fcs.length ≤ i := List.getElem?_eq_none_iff.mp hj
              have hnone : slots[i]? = none := List.getElem?_eq_none (hlen ▸ hge)
              simp [slotSet, hj, hnone]
          | some fc =>
              have hlt : i < fcs.length := by
                by_contra hc
                rw [List.getElem?_eq_none (by omega)] at hj
                cases hj
              simp [slotSet, hj, List.getElem?_set, hlen, hlt]
        · have hnotmem : ¬ i ∈ j :: σ := by
            simp [List.mem_cons, hij, hiσ]
          rw [if_neg hnotmem]
          cases hj : fcs[j]? with
          | none => simp [slotSet, hj]
          | some fc =>
              have hji : j ≠ i := fun h => hij h.symm
              simp [slotSet, hj, List.getElem?_set, hji]

lemma fanOut_slots_of_perm (callTool : String → List (String × String) → McpToolResult)
    (fcs : List FunctionCall) (σ : List Nat)
    (hperm : σ.Perm (List.range fcs.length)) :
    (fanOut callTool fcs σ).2 =
      fcs.map (fun fc => some (mkFunctionResponsePart callTool fc)) := by
  rw [fanOut_eq]
  apply List.ext_getElem?
  intro i
  rw [slots_foldl_getElem callTool fcs σ (List.replicate fcs.length none) (by simp) i]
  by_cases hi : i < fcs.length
  · have himem : i ∈ σ := hperm.mem_iff.mpr (List.mem_range.mpr hi)
    rw [if_pos himem, List.getElem?_map]
  · have himem : i ∉ σ := fun hmem => hi (List.mem_range.mp (hperm.mem_iff.mp hmem))
    rw [if_neg himem]
    have h1 : (List.replicate fcs.length (none : Option FunctionResponsePart))[i]? = none :=
      List.getElem?_eq_none (by simpa using not_lt.mp hi)
    have h2 : (fcs.map (fun fc => some (mkFunctionResponsePart callTool fc)))[i]? = none :=
      List.getElem?_eq_none (by simpa using not_lt.mp hi)
    rw [h1, h2]

lemma filterMap_id_map_some {α β : Type} (f : α → β) (l : List α) :
    (l.map (fun a => some (f a))).filterMap id = l.map f := by
  induction l with
  | nil => simp
  | cons a l ih => simp [ih]

lemma filterMap_get_range {α β : Type} (g : α → β) (l : List α) :
    (List.range l.length).filterMap (fun i => (l[i]?).map g) = l.map g := by
  induction l with
  | nil => simp
  | cons a l ih =>
      rw [List.length_cons, List.range_succ_eq_map, List.filterMap_cons]
      have h0 : (((a :: l)[0]?).map g) = some (g a) := by simp
      rw [h0, List.filterMap_map]
      have hcomp : ((fun i => (((a :: l)[i]?).map g)) ∘ Nat.succ) =
          fun i => ((l[i]?).map g) := by
        funext i
        simp
      rw [hcomp, ih]
      simp

lemma fanOut_records_of_perm (callTool : String → List (String × String) → McpToolResult)
    (fcs : List FunctionCall) (σ : List Nat)
    (hperm : σ.Perm (List.range fcs.length)) :
    (fanOut callTool fcs σ).1.Perm (fcs.map (mkToolCallRecord callTool)) := by
  rw [fanOut_eq]
  have h := hperm.filterMap (fun i => (fcs[i]?).map (mkToolCallRecord callTool))
  rwa [filterMap_get_range (mkToolCallRecord callTool) fcs] at h

/-- C1: for every orchestration run with ceiling at least one, the returned
iteration count never exceeds the ceiling, the loop makes at most that many
model round-trips (the round-trip trace is exactly as long as the returned
iteration count), and for a model that requests a tool call on every turn
with ceiling 3 the loop stops at iteration 3 with the limit-exceeded
fallback message and the three accumulated tool call records. -/
theorem iteration_ceiling_spec :
    (∀ (model : Nat → CurrentMessage → GeminiResponse)
       (callTool : String → List (String × String) → McpToolResult)
       (sched : Nat → Nat → List Nat) (maxToolCalls : Nat),
       1 ≤ maxToolCalls → ∀ msg : CurrentMessage,
         (agenticLoop model callTool sched maxToolCalls 0 [] msg).iterations ≤ maxToolCalls ∧
         (agenticLoopCalls model callTool sched maxToolCalls 0 msg).length ≤ maxToolCalls ∧
         (agenticLoop model callTool sched maxToolCalls 0 [] msg).iterations =
           (agenticLoopCalls model callTool sched maxToolCalls 0 msg).length)
    ∧ agenticLoop alwaysCallModel okCallTool idSched 3 0 [] (CurrentMessage.text "hi") =
        { message := limitMessage,
          toolCalls := [mkToolCallRecord okCallTool demoFunctionCall,
            mkToolCallRecord okCallTool demoFunctionCall,
            mkToolCallRecord okCallTool demoFunctionCall],
          iterations := 3 } := by
  constructor
  · intro model callTool sched maxToolCalls _hpos msg
    obtain ⟨_, hco, hlen⟩ :=
      agenticLoop_pack model callTool sched maxToolCalls maxToolCalls 0 [] msg (by omega)
    refine ⟨by omega, by omega, by omega⟩
  · have e1 : agenticLoop alwaysCallModel okCallTool idSched 3 0 [] (CurrentMessage.text "hi") =
        agenticLoop alwaysCallModel okCallTool idSched 3 1
          [mkToolCallRecord okCallTool demoFunctionCall]
          (CurrentMessage.functionResponses
            [mkFunctionResponsePart okCallTool demoFunctionCall]) :=
      (agenticLoop_step alwaysCallModel okCallTool idSched 3 0 []
        (CurrentMessage.text "hi") { parts := [Part.functionCall demoFunctionCall] }
        (by omega) rfl rfl).trans rfl
    have e2 : agenticLoop alwaysCallModel okCallTool idSched 3 1
        [mkToolCallRecord okCallTool demoFunctionCall]
        (CurrentMessage.functionResponses
          [mkFunctionResponsePart okCallTool demoFunctionCall]) =
        agenticLoop alwaysCallModel okCallTool idSched 3 2
          [mkToolCallRecord okCallTool demoFunctionCall,
           mkToolCallRecord okCallTool demoFunctionCall]
          (CurrentMessage.functionResponses
            [mkFunctionResponsePart okCallTool demoFunctionCall]) :=
      (agenticLoop_step alwaysCallModel okCallTool idSched 3 1
        [mkToolCallRecord okCallTool demoFunctionCall]
        (CurrentMessage.functionResponses
          [mkFunctionResponsePart okCallTool demoFunctionCall])
        { parts := [Part.functionCall demoFunctionCall] }
        (by omega) rfl rfl).trans rfl
    have e3 : agenticLoop alwaysCallModel okCallTool idSched 3 2
        [mkToolCallRecord okCallTool demoFunctionCall,
         mkToolCallRecord okCallTool demoFunctionCall]
        (CurrentMessage.functionResponses
          [mkFunctionResponsePart okCallTool demoFunctionCall]) =
        agenticLoop alwaysCallModel okCallTool idSched 3 3
          [mkToolCallRecord okCallTool demoFunctionCall,
           mkToolCallRecord okCallTool demoFunctionCall,
           mkToolCallRecord okCallTool demoFunctionCall]
          (CurrentMessage.functionResponses
            [mkFunctionResponsePart okCallTool demoFunctionCall]) :=
      (agenticLoop_step alwaysCallModel okCallTool idSched 3 2
        [mkToolCallRecord okCallTool demoFunctionCall,
         mkToolCallRecord okCallTool demoFunctionCall]
        (CurrentMessage.functionResponses
          [mkFunctionResponsePart okCallTool demoFunctionCall])
        { parts := [Part.functionCall demoFunctionCall] }
        (by omega) rfl rfl).trans rfl
    have e4 : agenticLoop alwaysCallModel okCallTool idSched 3 3
        [mkToolCallRecord okCallTool demoFunctionCall,
         mkToolCallRecord okCallTool demoFunctionCall,
         mkToolCallRecord okCallTool demoFunctionCall]
        (CurrentMessage.functionResponses
          [mkFunctionResponsePart okCallTool demoFunctionCall]) =
        { message := limitMessage,
          toolCalls := [mkToolCallRecord okCallTool demoFunctionCall,
            mkToolCallRecord okCallTool demoFunctionCall,
            mkToolCallRecord okCallTool demoFunctionCall],
          iterations := 3 } :=
      agenticLoop_limit alwaysCallModel okCallTool idSched 3 3
        [mkToolCallRecord okCallTool demoFunctionCall,
         mkToolCallRecord okCallTool demoFunctionCall,
         mkToolCallRecord okCallTool demoFunctionCall]
        (CurrentMessage.functionResponses
          [mkFunctionResponsePart okCallTool demoFunctionCall])
        (by omega)
    exact e1.trans (e2.trans (e3.trans e4))

/-- Witness for iteration_ceiling_spec at the always-calling model with
ceiling 3. -/
theorem iteration_ceiling_spec_witness :
    (agenticLoop alwaysCallModel okCallTool idSched 3 0 []
      (CurrentMessage.text "hi")).iterations ≤ 3 ∧
    (agenticLoopCalls alwaysCallModel okCallTool idSched 3 0
      (CurrentMessage.text "hi")).length ≤ 3 :=
  ⟨(iteration_ceiling_spec.1 alwaysCallModel okCallTool idSched 3 (by decide)
      (CurrentMessage.text "hi")).1,
   (iteration_ceiling_spec.1 alwaysCallModel okCallTool idSched 3 (by decide)
      (CurrentMessage.text "hi")).2.1⟩

/-- Counterexample to C3 as stated: a concrete transport failure yields a
toolCallRecords entry whose result is the text content item
(type text, text Tool execution failed: ...), not an object carrying
error true and a message field — both of those fields are absent. -/
theorem tool_failure_record_shape_counterexample :
    mkToolCallRecord (callMcpTool failTransport) demoFunctionCall =
      { name := "aggregate_customer_context", input := [("email", "jane@example.com")],
        result := some { type := "text", text := some "Tool execution failed: fetch failed",
                         error := none, message := none } } ∧
    (mkToolCallRecord (callMcpTool failTransport) demoFunctionCall).result.map
        ContentItem.error ≠ some (some true) ∧
    (mkToolCallRecord (callMcpTool failTransport) demoFunctionCall).result.map
        ContentItem.message ≠ some (some "fetch failed") := by
  refine ⟨rfl, by decide, by decide⟩

/-- C3 amended: a transport failure inside callMcpTool is caught and turned
into a well-formed McpToolResult flagged isError true whose single content
item is the text item Tool execution failed: message; the toolCallRecords
entry of such a failed call is name, input, and that text item as result;
and the loop, far from aborting, proceeds to the next iteration, sending
the function responses of the batch back to the model. -/
theorem tool_failure_record_spec :
    (∀ (transport : String → List (String × String) → Except String McpToolResult)
       (toolName : String) (args : List (String × String)) (e : String),
       transport toolName args = Except.error e →
         callMcpTool transport toolName args =
           { content := [{ type := "text", text := some ("Tool execution failed: " ++ e) }],
             isError := some true } ∧
         (callMcpTool transport toolName args).isError = some true ∧
         mkToolCallRecord (callMcpTool transport) { name := toolName, args := args } =
           { name := toolName, input := args,
             result :=
               some { type := "text",
                      text := some ("Tool execution failed: " ++ e) } })
    ∧ (∀ (callTool : String → List (String × String) → McpToolResult)
         (fcs : List FunctionCall) (σ : List Nat) (fc : FunctionCall),
         σ.Perm (List.range fcs.length) → fc ∈ fcs →
           mkToolCallRecord callTool fc ∈ (fanOut callTool fcs σ).1)
    ∧ (∀ (model : Nat → CurrentMessage → GeminiResponse)
         (callTool : String → List (String × String) → McpToolResult)
         (sched : Nat → Nat → List Nat) (maxToolCalls its : Nat)
         (recs : List ToolCallRecord) (msg : CurrentMessage) (cand : Candidate),
         its < maxToolCalls →
         ((model (its + 1) msg).candidates.head?) = some cand →
         (cand.parts.filterMap Part.getFunctionCall).isEmpty = false →
           agenticLoop model callTool sched maxToolCalls its recs msg =
             agenticLoop model callTool sched maxToolCalls (its + 1)
               (recs ++ (fanOut callTool (cand.parts.filterMap Part.getFunctionCall)
                 (sched (its + 1) (cand.parts.filterMap Part.getFunctionCall).length)).1)
               (CurrentMessage.functionResponses
                 ((fanOut callTool (cand.parts.filterMap Part.getFunctionCall)
                   (sched (its + 1)
                     (cand.parts.filterMap Part.getFunctionCall).length)).2.filterMap id))) := by
  refine ⟨?_, ?_, ?_⟩
  · intro transport toolName args e h
    refine ⟨by simp [callMcpTool, h], by simp [callMcpTool, h], ?_⟩
    simp [mkToolCallRecord, callMcpTool, h]
  · intro callTool fcs σ fc hperm hfc
    have hp := fanOut_records_of_perm callTool fcs σ hperm
    exact hp.mem_iff.mpr (List.mem_map_of_mem (mkToolCallRecord callTool) hfc)
  · intro model callTool sched maxToolCalls its recs msg cand h hm hfc
    exact agenticLoop_step model callTool sched maxToolCalls its recs msg cand h hm hfc

/-- Witness for tool_failure_record_spec at the failing transport and a
singleton batch. -/
theorem tool_failure_record_spec_witness :
    callMcpTool failTransport "aggregate_customer_context" [("email", "jane@example.com")] =
      { content := [{ type := "text", text := some "Tool execution failed: fetch failed" }],
        isError := some true } ∧
    mkToolCallRecord (callMcpTool failTransport) demoFunctionCall ∈
      (fanOut (callMcpTool failTransport) [demoFunctionCall] [0]).1 :=
  ⟨((tool_failure_record_spec.1 failTransport "aggregate_customer_context"
      [("email", "jane@example.com")] "fetch failed" rfl).1).trans rfl,
   tool_failure_record_spec.2.1 (callMcpTool failTransport) [demoFunctionCall] [0]
     demoFunctionCall (by decide) (by decide)⟩

/-- C4: for a batch of function calls executed concurrently, whenever the
completion order is any permutation of the request indices, Promise.all
still hands every result back, re-associated in the original request order
(the slot array equals the per-request responses in request order), the
records pushed during the fan-out are a permutation of the per-request
records (every call completed before resuming), and the loop resumes the
model with exactly those responses in request order, independent of the
completion order. -/
theorem parallel_order_spec :
    (∀ (callTool : String → List (String × String) → McpToolResult)
       (fcs : List FunctionCall) (σ : List Nat),
       σ.Perm (List.range fcs.length) →
         (fanOut callTool fcs σ).2.filterMap id =
           fcs.map (mkFunctionResponsePart callTool) ∧
         (fanOut callTool fcs σ).1.Perm (fcs.map (mkToolCallRecord callTool)))
    ∧ (∀ (model : Nat → CurrentMessage → GeminiResponse)
         (callTool : String → List (String × String) → McpToolResult)
         (sched : Nat → Nat → List Nat) (maxToolCalls its : Nat)
         (recs : List ToolCallRecord) (msg : CurrentMessage) (cand : Candidate),
         its < maxToolCalls →
         ((model (its + 1) msg).candidates.head?) = some cand →
         (cand.parts.filterMap Part.getFunctionCall).isEmpty = false →
         (sched (its + 1) (cand.parts.filterMap Part.getFunctionCall).length).Perm
           (List.range (cand.parts.filterMap Part.getFunctionCall).length) →
           agenticLoop model callTool sched maxToolCalls its recs msg =
             agenticLoop model callTool sched maxToolCalls (its + 1)
               (recs ++ (fanOut callTool (cand.parts.filterMap Part.getFunctionCall)
                 (sched (its + 1) (cand.parts.filterMap Part.getFunctionCall).length)).1)
               (CurrentMessage.functionResponses
                 ((cand.parts.filterMap Part.getFunctionCall).map
                   (mkFunctionResponsePart callTool)))) := by
  have hresp : ∀ (callTool : String → List (String × String) → McpToolResult)
      (fcs : List FunctionCall) (σ : List Nat),
      σ.Perm (List.range fcs.length) →
        (fanOut callTool fcs σ).2.filterMap id =
          fcs.map (mkFunctionResponsePart callTool) := by
    intro callTool fcs σ hperm
    rw [fanOut_slots_of_perm callTool fcs σ hperm,
        filterMap_id_map_some (mkFunctionResponsePart callTool) fcs]
  constructor
  · intro callTool fcs σ hperm
    exact ⟨hresp callTool fcs σ hperm, fanOut_records_of_perm callTool fcs σ hperm⟩
  · intro model callTool sched maxToolCalls its recs msg cand h hm hfc hperm
    rw [agenticLoop_step model callTool sched maxToolCalls its recs msg cand h hm hfc,
        hresp callTool (cand.parts.filterMap Part.getFunctionCall)
          (sched (its + 1) (cand.parts.filterMap Part.getFunctionCall).length) hperm]

/-- Witness for parallel_order_spec: two requests A then B whose completion
order is B first (schedule [1, 0]) still produce the response list
[responseA, responseB] in request order, with both records pushed. -/
theorem parallel_order_spec_witness :
    (fanOut okCallTool [demoFunctionCall, { name := "refund_order", args := [] }]
        [1, 0]).2.filterMap id =
      [demoFunctionCall, { name := "refund_order", args := [] }].map
        (mkFunctionResponsePart okCallTool) ∧
    (fanOut okCallTool [demoFunctionCall, { name := "refund_order", args := [] }]
        [1, 0]).1.Perm
      ([demoFunctionCall, { name := "refund_order", args := [] }].map
        (mkToolCallRecord okCallTool)) :=
  parallel_order_spec.1 okCallTool
    [demoFunctionCall, { name := "refund_order", args := [] }] [1, 0] (by decide)

/-- Counterexample to C5 as stated: on a malformed conversation history —
here the empty message list — sendMessageToGemini does not return a
well-formed response object; it throws the raw error Last message must be
from user to the caller. The same happens when the last message is not
from the user. -/
theorem orchestration_totality_counterexample :
    sendMessageToGemini alwaysCallModel okCallTool idSched { messages := [] } =
      Except.error "Last message must be from user" ∧
    sendMessageToGemini alwaysCallModel okCallTool idSched
        { messages := [{ role := "assistant", content := "hello" }] } =
      Except.error "Last message must be from user" := by
  exact ⟨rfl, rfl⟩

/-- C5 amended: for every request whose message list ends with a user
message, sendMessageToGemini returns Except.ok with a well-formed response
(message, tool call records, iteration count) whose run is described by the
big-step relation, so no exception escapes the loop on any of its paths;
when the message list is empty or ends with a non-user message the function
instead throws Last message must be from user. A model response with no
candidate is the only loop outcome besides a final answer and the
iteration ceiling, it carries the no-candidate fallback message, and with a
model that always yields a candidate it never occurs. -/
theorem orchestration_totality_spec :
    (∀ (model : Nat → CurrentMessage → GeminiResponse)
       (callTool : String → List (String × String) → McpToolResult)
       (sched : Nat → Nat → List Nat) (request : ChatRequest) (latest : Message),
       request.messages.getLast? = some latest → latest.role = "user" →
         ∃ r : ChatResponse,
           sendMessageToGemini model callTool sched request = Except.ok r ∧
           ∃ k, LoopRun model callTool sched request.maxToolCalls 0 []
             (CurrentMessage.text latest.content) r k)
    ∧ (∀ (model : Nat → CurrentMessage → GeminiResponse)
         (callTool : String → List (String × String) → McpToolResult)
         (sched : Nat → Nat → List Nat) (request : ChatRequest) (latest : Message),
         request.messages.getLast? = some latest → latest.role ≠ "user" →
           sendMessageToGemini model callTool sched request =
             Except.error "Last message must be from user")
    ∧ (∀ (model : Nat → CurrentMessage → GeminiResponse)
         (callTool : String → List (String × String) → McpToolResult)
         (sched : Nat → Nat → List Nat) (maxToolCalls its : Nat)
         (recs : List ToolCallRecord) (msg : CurrentMessage) (r : ChatResponse)
         (k : TerminationKind),
         LoopRun model callTool sched maxToolCalls its recs msg r k →
           (k = TerminationKind.modelUnavailable → r.message = noCandidateMessage) ∧
           ((∀ (it : Nat) (m : CurrentMessage),
              (((model it m).candidates.head?)).isSome = true) →
             k ≠ TerminationKind.modelUnavailable)) := by
  refine ⟨?_, ?_, ?_⟩
  · intro model callTool sched request latest hlast hrole
    refine ⟨agenticLoop model callTool sched request.maxToolCalls 0 []
      (CurrentMessage.text latest.content), ?_, ?_⟩
    · simp [sendMessageToGemini, hlast, hrole]
    · exact agenticLoop_run model callTool sched request.maxToolCalls 0 []
        (CurrentMessage.text latest.content)
  · intro model callTool sched request latest hlast hrole
    simp [sendMessageToGemini, hlast, hrole]
  · intro model callTool sched maxToolCalls its recs msg r k hrun
    exact ⟨loopRun_unavailable_message model callTool sched maxToolCalls its recs msg r k hrun,
      fun hhealthy => loopRun_not_unavailable model callTool sched maxToolCalls its recs msg
        r k hhealthy hrun⟩

/-- Witness for orchestration_totality_spec: a request ending with a user
message yields an Except.ok response with a described run. -/
theorem orchestration_totality_spec_witness :
    ∃ r : ChatResponse,
      sendMessageToGemini alwaysCallModel okCallTool idSched
        { messages := [{ role := "user", content := "hi" }] } = Except.ok r ∧
      ∃ k, LoopRun alwaysCallModel okCallTool idSched 10 0 []
        (CurrentMessage.text "hi") r k :=
  orchestration_totality_spec.1 alwaysCallModel okCallTool idSched
    { messages := [{ role := "user", content := "hi" }] }
    { role := "user", content := "hi" } rfl rfl

end McpSpec

